import Mathlib

/-!
Verification of the Soup orchestration server (`src/Server/server.js`).

The server's orchestration core is embedded shallowly:

* effects of remote calls (RPC round trips, HTTP polls) are supplied as
  explicit environment data (functions from the attempt index to the call's
  outcome), so each JS function becomes a pure Lean function from its
  environment to a result record;
* every sleep (`setTimeout`) is recorded as an accumulated delay in
  milliseconds instead of being performed;
* JS exceptions become `Except` values; a thrown `undefined` (a variable
  that was never assigned) is modelled as `Except.error none` where the
  error channel is an `Option`;
* JS `while (attempt < maxAttempts)` loops are written as structural
  recursion on the remaining number of iterations (`fuel`), with the fuel
  initialised to the loop bound, which is equivalent to the source loop
  because the counter only increments by one per iteration.
-/

namespace Soup

/-! ## RetryExecutor: `runWithRetries` (server.js lines 131-146) -/

/-- Observable outcome of one `runWithRetries` call: the value returned or
error thrown (`Except.error none` models `throw lastErr` with `lastErr`
still `undefined`), the number of times `action` was invoked, and the total
milliseconds slept across all backoff delays. -/
structure RetryState (E A : Type) where
  result : Except (Option E) A
  invocations : Nat
  totalDelay : Nat

/-- Loop body of `runWithRetries`.  `action i` is the outcome of the
`i`-th invocation of the JS `action()` thunk (0-indexed); `attempt` is the
JS `attempt` counter value at the top of the loop (number of invocations so
far); `fuel = maxAttempts - attempt` drives the structural recursion.
On `.ok` the loop returns; on `.error e` the JS code sets `lastErr = e`,
breaks out to `throw lastErr` when `attempt >= maxAttempts` after the
increment, and otherwise sleeps `baseDelayMs * attempt` and retries. -/
def runGo {E A : Type} (action : Nat → Except E A) (maxAttempts baseDelayMs : Nat) :
    Nat → Nat → Option E → Nat → Nat → RetryState E A
  | 0, _, lastErr, inv, delay => ⟨.error lastErr, inv, delay⟩
  | fuel + 1, attempt, _, inv, delay =>
    match action attempt with
    | .ok v => ⟨.ok v, inv + 1, delay⟩
    | .error e =>
      if attempt + 1 ≥ maxAttempts then ⟨.error (some e), inv + 1, delay⟩
      else runGo action maxAttempts baseDelayMs fuel (attempt + 1) (some e) (inv + 1)
        (delay + baseDelayMs * (attempt + 1))

/-- `runWithRetries(action, {maxAttempts, baseDelayMs})` (server.js 131-146).
`maxAttempts` is an integer as in JS: when it is `≤ 0`, the `while` guard
`attempt < maxAttempts` is false at once, no invocation happens, and the
function throws the never-assigned `lastErr` (`.error none`). -/
def runWithRetries {E A : Type} (action : Nat → Except E A) (maxAttempts : Int)
    (baseDelayMs : Nat) : RetryState E A :=
  runGo action maxAttempts.toNat baseDelayMs maxAttempts.toNat 0 none 0 0

end Soup

namespace Soup

lemma runGo_succeeds {E A : Type} (action : Nat → Except E A) (maxAttempts baseDelayMs : Nat)
    (v : A) :
    ∀ (k fuel attempt : Nat) (lastErr : Option E) (inv delay : Nat),
      attempt + fuel = maxAttempts → k < fuel →
      (∀ i, i < k → ∃ e, action (attempt + i) = .error e) →
      action (attempt + k) = .ok v →
      runGo action maxAttempts baseDelayMs fuel attempt lastErr inv delay =
        ⟨.ok v, inv + k + 1,
          delay + baseDelayMs * ∑ i ∈ Finset.range k, (attempt + i + 1)⟩ := by
  intro k
  induction k with
  | zero =>
    intro fuel attempt lastErr inv delay hfa hk hfail hok
    obtain ⟨f, rfl⟩ : ∃ f, fuel = f + 1 := ⟨fuel - 1, by omega⟩
    simp only [runGo]
    rw [show attempt + 0 = attempt from rfl] at hok
    rw [hok]
    simp
  | succ k ih =>
    intro fuel attempt lastErr inv delay hfa hk hfail hok
    obtain ⟨f, rfl⟩ : ∃ f, fuel = f + 1 := ⟨fuel - 1, by omega⟩
    obtain ⟨e0, he0⟩ := hfail 0 (Nat.succ_pos k)
    rw [show attempt + 0 = attempt from rfl] at he0
    simp only [runGo, he0]
    have hnb : ¬ (attempt + 1 ≥ maxAttempts) := by omega
    rw [if_neg hnb]
    have hrec := ih f (attempt + 1) (some e0) (inv + 1)
      (delay + baseDelayMs * (attempt + 1)) (by omega) (by omega)
      (fun i hi => by
        obtain ⟨e, he⟩ := hfail (i + 1) (by omega)
        exact ⟨e, by rw [show attempt + 1 + i = attempt + (i + 1) by omega]; exact he⟩)
      (by rw [show attempt + 1 + k = attempt + (k + 1) by omega]; exact hok)
    have hsum : ∑ i ∈ Finset.range (k + 1), (attempt + i + 1)
        = (∑ i ∈ Finset.range k, (attempt + 1 + i + 1)) + (attempt + 1) := by
      rw [Finset.sum_range_succ']
      congr 1
      exact Finset.sum_congr rfl (fun i _ => by ring)
    rw [hrec, hsum]
    congr 1
    · omega
    · ring

lemma runGo_all_fail {E A : Type} (action : Nat → Except E A) (maxAttempts baseDelayMs : Nat)
    (errAt : Nat → E) (hall : ∀ i, action i = .error (errAt i)) :
    ∀ (fuel attempt : Nat) (lastErr : Option E) (inv delay : Nat),
      1 ≤ fuel → attempt + fuel = maxAttempts →
      (runGo action maxAttempts baseDelayMs fuel attempt lastErr inv delay).result =
          .error (some (errAt (maxAttempts - 1))) ∧
        (runGo action maxAttempts baseDelayMs fuel attempt lastErr inv delay).invocations =
          inv + fuel := by
  intro fuel
  induction fuel with
  | zero => intro attempt lastErr inv delay h1; omega
  | succ f ih =>
    intro attempt lastErr inv delay h1 hfa
    simp only [runGo, hall attempt]
    rcases Nat.eq_zero_or_pos f with hf0 | hfpos
    · subst hf0
      have : attempt + 1 ≥ maxAttempts := by omega
      rw [if_pos this]
      have : attempt = maxAttempts - 1 := by omega
      subst this
      exact ⟨rfl, rfl⟩
    · have : ¬ (attempt + 1 ≥ maxAttempts) := by omega
      rw [if_neg this]
      have := ih (attempt + 1) (some (errAt attempt)) (inv + 1)
        (delay + baseDelayMs * (attempt + 1)) hfpos (by omega)
      exact ⟨this.1, by rw [this.2]; omega⟩

/-- C1: `runWithRetries` retries unconditionally on any failure.  If the
action fails exactly `k < maxAttempts` times and then succeeds, the call
returns the success value after `k + 1` invocations having slept
`baseDelayMs * (1 + 2 + ... + k)` in total (delay before retry `i` is
`baseDelayMs * i`); if the action fails on every invocation, the call
invokes it exactly `maxAttempts` times and re-raises the last failure
unmodified. -/
theorem runWithRetries_retry_spec {E A : Type} (action : Nat → Except E A)
    (maxAttempts k baseDelayMs : Nat) (v : A) (errAt : Nat → E) :
    (k < maxAttempts →
      (∀ i, i < k → ∃ e, action i = .error e) →
      action k = .ok v →
      runWithRetries action (maxAttempts : Int) baseDelayMs =
        ⟨.ok v, k + 1, baseDelayMs * ∑ i ∈ Finset.range k, (i + 1)⟩) ∧
    (1 ≤ maxAttempts →
      (∀ i, action i = .error (errAt i)) →
      (runWithRetries action (maxAttempts : Int) baseDelayMs).result =
          .error (some (errAt (maxAttempts - 1))) ∧
        (runWithRetries action (maxAttempts : Int) baseDelayMs).invocations = maxAttempts) := by
  constructor
  · intro hk hfail hok
    unfold runWithRetries
    rw [Int.toNat_natCast]
    have := runGo_succeeds action maxAttempts baseDelayMs v k maxAttempts 0 none 0 0
      (by omega) hk (fun i hi => by simpa using hfail i hi) (by simpa using hok)
    rw [this]
    simp
  · intro h1 hall
    unfold runWithRetries
    rw [Int.toNat_natCast]
    have := runGo_all_fail action maxAttempts baseDelayMs errAt hall maxAttempts 0 none 0 0
      h1 (by omega)
    exact ⟨this.1, by simpa using this.2⟩

/-- Action that fails on invocations 0 and 1 and succeeds on invocation 2. -/
def retryDemoAction : Nat → Except String Nat :=
  fun i => if i < 2 then .error (toString i) else .ok 42

/-- Action that fails on every invocation. -/
def retryFailAction : Nat → Except String Nat :=
  fun i => .error (toString i)

/-- Witness for C1 at concrete inputs: two failures then success under
`maxAttempts = 4, baseDelayMs = 100` yields the success value after three
invocations and 300 ms of delay; an always-failing action under
`maxAttempts = 3` is invoked exactly three times and the third error is
re-raised. -/
theorem runWithRetries_retry_spec_witness :
    (runWithRetries retryDemoAction (4 : Int) 100 =
        ⟨.ok 42, 3, 100 * ∑ i ∈ Finset.range 2, (i + 1)⟩) ∧
      (runWithRetries retryFailAction (3 : Int) 7).result = .error (some "2") ∧
      (runWithRetries retryFailAction (3 : Int) 7).invocations = 3 := by
  refine ⟨?_, ?_, ?_⟩
  · exact (runWithRetries_retry_spec retryDemoAction 4 2 100 42 toString).1
      (by decide) (fun i hi => ⟨toString i, by interval_cases i <;> rfl⟩) rfl
  · exact ((runWithRetries_retry_spec retryFailAction 3 0 7 0 toString).2
      (by decide) (fun i => rfl)).1
  · exact ((runWithRetries_retry_spec retryFailAction 3 0 7 0 toString).2
      (by decide) (fun i => rfl)).2

/-- C10: with `maxAttempts ≤ 0` the JS `while` guard is false immediately:
`runWithRetries` never invokes the action and throws the never-assigned
`lastErr` (i.e. `undefined`, modelled `.error none`) rather than returning
a result or a descriptive error. -/
theorem runWithRetries_nonpositive_attempts {E A : Type} (action : Nat → Except E A)
    (maxAttempts : Int) (baseDelayMs : Nat) (h : maxAttempts ≤ 0) :
    runWithRetries action maxAttempts baseDelayMs =
      ⟨.error none, 0, 0⟩ := by
  unfold runWithRetries
  rw [Int.toNat_of_nonpos h]
  rfl

/-- Witness for C10 at `maxAttempts = 0` and `maxAttempts = -3`. -/
theorem runWithRetries_nonpositive_attempts_witness :
    runWithRetries retryDemoAction (0 : Int) 100 = ⟨.error none, 0, 0⟩ ∧
      runWithRetries retryFailAction (-3 : Int) 100 = ⟨.error none, 0, 0⟩ :=
  ⟨runWithRetries_nonpositive_attempts retryDemoAction 0 100 (by decide),
    runWithRetries_nonpositive_attempts retryFailAction (-3) 100 (by decide)⟩

/-! ## AttestationPoller: `fetchAttestation` (server.js lines 378-420) -/

/-- One entry of the Circle API response's `messages` array.  A JS-truthy
`attestation` field is a non-empty string. -/
structure AttMsg where
  attestation : String
  status : String
  message : String
  deriving DecidableEq

/-- Outcome of one poll of the attestation endpoint: either `fetch`/`json`
threw (network-level error, carrying the JS error's message) or a response
arrived whose `messages` array is the given list (a response without a
`messages` field behaves exactly like an empty list in the source's
`data.messages && data.messages.length > 0` guard, so both are modelled as
`[]`). -/
inductive PollResult where
  | netError (e : String)
  | resp (messages : List AttMsg)
  deriving DecidableEq

/-- Failure channel of `fetchAttestation`: the distinct timeout error
thrown after the loop (`'Failed to fetch attestation after maximum
attempts'`) or a re-raised network-level error from the final attempt. -/
inductive FetchErr where
  | timeout
  | net (e : String)
  deriving DecidableEq

/-- Observable outcome of `fetchAttestation`: result, number of attempts
performed, and total milliseconds slept. -/
structure FetchResult where
  result : Except FetchErr AttMsg
  attempts : Nat
  totalDelay : Nat

/-- The source's success test on the first entry of `messages`:
`message.attestation && message.status === 'complete'`. -/
def msgReady (m : AttMsg) : Bool :=
  m.attestation ≠ "" && m.status == "complete"

/-- Whether one poll's outcome makes the source return: the response has a
non-empty `messages` array and its FIRST entry passes `msgReady` (the
source only ever inspects `data.messages[0]`). -/
def respReady : PollResult → Bool
  | .netError _ => false
  | .resp msgs =>
    match msgs.head? with
    | some m => msgReady m
    | none => false

/-- First entry of a response (the one the source returns on success). -/
def respFirst : PollResult → Option AttMsg
  | .netError _ => none
  | .resp msgs => msgs.head?

/-- Loop body of `fetchAttestation`.  `polls i` is the outcome of the
`i`-th poll (0-indexed); `attempts` is the JS counter at the top of the
loop and `fuel = 10 - attempts`.  Each iteration sleeps 10 s before the
first poll and 5 s otherwise, polls, returns the first message on success,
re-raises a network error when `attempts >= 10`, swallows it otherwise,
and loops on any not-ready response.  Fuel exhaustion is the loop exit,
after which the distinct timeout error is thrown. -/
def fetchGo (polls : Nat → PollResult) : Nat → Nat → Nat → FetchResult
  | 0, attempts, delay => ⟨.error .timeout, attempts, delay⟩
  | fuel + 1, attempts, delay =>
    let a := attempts + 1
    let d := delay + (if a = 1 then 10000 else 5000)
    match polls attempts with
    | .netError e => if a ≥ 10 then ⟨.error (.net e), a, d⟩ else fetchGo polls fuel a d
    | .resp msgs =>
      match msgs.head? with
      | some m => if msgReady m then ⟨.ok m, a, d⟩ else fetchGo polls fuel a d
      | none => fetchGo polls fuel a d

/-- `fetchAttestation(chainId, transactionHash)` (server.js 378-420) as a
function of the poll outcomes; `maxAttempts = 10` in the source. -/
def fetchAttestation (polls : Nat → PollResult) : FetchResult :=
  fetchGo polls 10 0 0

/-- Milliseconds slept at the top of the iteration that performs the
0-indexed poll `t`: 10 s before the first poll, 5 s before the others. -/
def sleepAt (t : Nat) : Nat := if t = 0 then 10000 else 5000

/-- `true` exactly on `Except.ok`. -/
def isOkExcept {ε α : Type} : Except ε α → Bool
  | .ok _ => true
  | .error _ => false

/-- The frozen claim's success condition: the response has at least one
entry (anywhere in the array) with status `"complete"` and a non-empty
attestation. -/
def respHasCompleteEntry : PollResult → Bool
  | .netError _ => false
  | .resp msgs => msgs.any (fun m => m.status == "complete" && m.attestation ≠ "")

lemma ite_first_sleep (a : Nat) : (if a + 1 = 1 then 10000 else 5000) = sleepAt a := by
  simp only [sleepAt]
  by_cases h0 : a = 0 <;> simp [h0]

/-- A not-ready poll before the attempt budget is exhausted makes the loop
continue with the next attempt. -/
lemma fetchGo_step_notReady (polls : Nat → PollResult) (f a d : Nat) (ha : a + 1 < 10)
    (h : respReady (polls a) = false) :
    fetchGo polls (f + 1) a d =
      fetchGo polls f (a + 1) (d + (if a + 1 = 1 then 10000 else 5000)) := by
  cases hp : polls a with
  | netError e =>
    simp only [fetchGo, hp]
    rw [if_neg (by omega)]
  | resp msgs =>
    rw [hp] at h
    cases hh : msgs.head? with
    | some m0 =>
      have hm0 : msgReady m0 = false := by simpa [respReady, hh] using h
      simp only [fetchGo, hp, hh]
      rw [hm0, if_neg Bool.false_ne_true]
    | none => simp only [fetchGo, hp, hh]

lemma fetchGo_success (polls : Nat → PollResult) :
    ∀ (fuel a d i : Nat) (m : AttMsg), a + fuel = 10 → a ≤ i → i < 10 →
      respReady (polls i) = true →
      (∀ j, a ≤ j → j < i → respReady (polls j) = false) →
      respFirst (polls i) = some m →
      fetchGo polls fuel a d = ⟨.ok m, i + 1, d + ∑ t ∈ Finset.Ico a (i + 1), sleepAt t⟩ := by
  intro fuel
  induction fuel with
  | zero => intro a d i m hfa hai hi; omega
  | succ f ih =>
    intro a d i m hfa hai hi hready hbefore hfirst
    rcases Nat.eq_or_lt_of_le hai with rfl | hlt
    · cases hp : polls a with
      | netError e => rw [hp] at hready; simp [respReady] at hready
      | resp msgs =>
        have hfirst' : msgs.head? = some m := by
          have h := hfirst; rw [hp] at h; simpa [respFirst] using h
        have hm : msgReady m = true := by
          have h := hready; rw [hp] at h; simpa [respReady, hfirst'] using h
        have hsum : ∑ t ∈ Finset.Ico a (a + 1), sleepAt t = sleepAt a := by
          rw [Finset.sum_Ico_succ_top le_rfl, Finset.Ico_self, Finset.sum_empty, Nat.zero_add]
        simp only [fetchGo, hp, hfirst']
        rw [hm, if_pos rfl, ite_first_sleep, hsum]
    · have hnready : respReady (polls a) = false := hbefore a le_rfl hlt
      rw [fetchGo_step_notReady polls f a d (by omega) hnready,
        ih (a + 1) _ i m (by omega) (by omega) hi hready
          (fun j h1 h2 => hbefore j (by omega) h2) hfirst]
      rw [ite_first_sleep, Finset.sum_eq_sum_Ico_succ_bot (by omega : a < i + 1) sleepAt]
      congr 1
      ring

lemma fetchGo_exhaust (polls : Nat → PollResult) :
    ∀ (f a d : Nat), a + (f + 1) = 10 →
      (∀ j, a ≤ j → j < 10 → respReady (polls j) = false) →
      (fetchGo polls (f + 1) a d).attempts = 10 ∧
        (fetchGo polls (f + 1) a d).result =
          (match polls 9 with
            | .netError e => Except.error (.net e)
            | .resp _ => Except.error .timeout) := by
  intro f
  induction f with
  | zero =>
    intro a d hfa hall
    have ha : a = 9 := by omega
    subst ha
    have h9 : respReady (polls 9) = false := hall 9 le_rfl (by omega)
    cases hp : polls 9 with
    | netError e =>
      simp only [fetchGo, hp]
      rw [if_pos (by omega : (9 : Nat) + 1 ≥ 10)]
      exact ⟨by norm_num, by norm_num⟩
    | resp msgs =>
      rw [hp] at h9
      cases hh : msgs.head? with
      | some m0 =>
        have hm0 : msgReady m0 = false := by simpa [respReady, hh] using h9
        simp only [fetchGo, hp, hh]
        rw [hm0, if_neg Bool.false_ne_true]
        exact ⟨by norm_num, by norm_num⟩
      | none =>
        simp only [fetchGo, hp, hh]
        exact ⟨by norm_num, by norm_num⟩
  | succ f ih =>
    intro a d hfa hall
    have hnready : respReady (polls a) = false := hall a le_rfl (by omega)
    rw [fetchGo_step_notReady polls (f + 1) a d (by omega) hnready]
    exact ih (a + 1) _ (by omega) (fun j h1 h2 => hall j (by omega) h2)

lemma sum_sleepAt (i : Nat) :
    ∑ t ∈ Finset.Ico 0 (i + 1), sleepAt t = 10000 + 5000 * i := by
  induction i with
  | zero => simp [sleepAt]
  | succ i ih =>
    rw [Finset.sum_Ico_succ_top (by omega), ih]
    simp only [sleepAt]
    rw [if_neg (by omega)]
    ring

/-- Poll stream on which every response contains a pending first entry
followed by a complete entry with a non-empty attestation. -/
def pollsCex : Nat → PollResult :=
  fun _ => .resp [⟨"", "pending", ""⟩, ⟨"0xdeadbeef", "complete", "0xmsg"⟩]

/-- C2 counterexample: every one of the ten polled responses contains a
message entry with status `"complete"` and a non-empty attestation (in
second position), yet `fetchAttestation` does not return successfully —
the source only inspects `messages[0]`, so success is NOT equivalent to
"some response contains at least one complete entry". -/
theorem fetchAttestation_some_entry_cex :
    ¬ ((isOkExcept (fetchAttestation pollsCex).result = true) ↔
      (∃ i, i < 10 ∧ respHasCompleteEntry (pollsCex i) = true)) := by
  decide

/-- C2 (amended): `fetchAttestation` returns successfully iff, within at
most 10 attempts, some polled response's FIRST message entry has status
`"complete"` and a non-empty attestation; it then returns that entry after
`i + 1` polls having slept `10000 + 5000 * i` ms (10 s before the first
poll, 5 s between subsequent polls); any other response state continues
polling; if no such response arrives within 10 attempts, all 10 polls are
performed and the call fails — re-raising the 10th poll's network error if
that poll failed at network level, and otherwise raising the distinct
attestation-timeout failure. -/
theorem fetchAttestation_poll_spec (polls : Nat → PollResult) :
    (∀ i m, i < 10 → respReady (polls i) = true →
      (∀ j, j < i → respReady (polls j) = false) →
      respFirst (polls i) = some m →
      fetchAttestation polls = ⟨.ok m, i + 1, 10000 + 5000 * i⟩) ∧
    ((∀ i, i < 10 → respReady (polls i) = false) →
      (fetchAttestation polls).attempts = 10 ∧
        (fetchAttestation polls).result =
          (match polls 9 with
            | .netError e => Except.error (.net e)
            | .resp _ => Except.error .timeout)) ∧
    (isOkExcept (fetchAttestation polls).result = true ↔
      ∃ i, i < 10 ∧ respReady (polls i) = true) := by
  have hsucc : ∀ i m, i < 10 → respReady (polls i) = true →
      (∀ j, j < i → respReady (polls j) = false) →
      respFirst (polls i) = some m →
      fetchAttestation polls = ⟨.ok m, i + 1, 10000 + 5000 * i⟩ := by
    intro i m hi hready hbefore hfirst
    unfold fetchAttestation
    rw [fetchGo_success polls 10 0 0 i m (by omega) (by omega) hi hready
      (fun j _ h2 => hbefore j h2) hfirst]
    rw [sum_sleepAt]
    simp
  have hexh : (∀ i, i < 10 → respReady (polls i) = false) →
      (fetchAttestation polls).attempts = 10 ∧
        (fetchAttestation polls).result =
          (match polls 9 with
            | .netError e => Except.error (.net e)
            | .resp _ => Except.error .timeout) := by
    intro hall
    unfold fetchAttestation
    exact fetchGo_exhaust polls 9 0 0 (by omega) (fun j _ h2 => hall j h2)
  refine ⟨hsucc, hexh, ?_, ?_⟩
  · intro hok
    by_contra hnone
    push_neg at hnone
    have hall : ∀ i, i < 10 → respReady (polls i) = false := by
      intro i hi
      simpa using hnone i hi
    have := (hexh hall).2
    rw [this] at hok
    cases hp : polls 9 <;> rw [hp] at hok <;> simp [isOkExcept] at hok
  · rintro ⟨i, hi, hready⟩
    have hex : ∃ n, n < 10 ∧ respReady (polls n) = true := ⟨i, hi, hready⟩
    classical
    obtain ⟨hn10, hnready⟩ := Nat.find_spec hex
    have hbefore : ∀ j, j < Nat.find hex → respReady (polls j) = false := by
      intro j hj
      have hmin := Nat.find_min hex hj
      have hj10 : j < 10 := by omega
      cases h : respReady (polls j) with
      | false => rfl
      | true => exact absurd ⟨hj10, h⟩ hmin
    obtain ⟨m, hm⟩ : ∃ m, respFirst (polls (Nat.find hex)) = some m := by
      cases hp : polls (Nat.find hex) with
      | netError e => rw [hp] at hnready; simp [respReady] at hnready
      | resp msgs =>
        rw [hp] at hnready
        cases hh : msgs.head? with
        | some m0 => exact ⟨m0, by simp [respFirst, hp, hh]⟩
        | none => simp [respReady, hh] at hnready
    rw [hsucc (Nat.find hex) m hn10 hnready hbefore hm]
    rfl

/-- Poll stream that is ready (first entry complete) on the third poll. -/
def pollsReadyThird : Nat → PollResult :=
  fun i => if i = 2 then .resp [⟨"0xatt", "complete", "0xm"⟩] else .resp []

/-- Witness for the amended C2 at concrete inputs: ready on the third
poll returns that entry after 3 attempts and 20 s of sleep; the
never-ready stream of `pollsCex` exhausts all 10 attempts and raises the
distinct timeout failure. -/
theorem fetchAttestation_poll_spec_witness :
    fetchAttestation pollsReadyThird =
        ⟨.ok ⟨"0xatt", "complete", "0xm"⟩, 3, 20000⟩ ∧
      (fetchAttestation pollsCex).attempts = 10 ∧
      (fetchAttestation pollsCex).result = .error .timeout := by
  refine ⟨?_, ?_⟩
  · have := (fetchAttestation_poll_spec pollsReadyThird).1 2 ⟨"0xatt", "complete", "0xm"⟩
      (by decide) (by decide) (fun j hj => by interval_cases j <;> decide) (by decide)
    simpa using this
  · have := (fetchAttestation_poll_spec pollsCex).2.1 (fun i _ => rfl)
    exact ⟨this.1, this.2⟩

/-! ## WalletProvisioner (server.js lines 229-375) -/

/-- ASCII lower-casing of one character, the behaviour of JS
`toLowerCase()` on the hex addresses compared by the source. -/
def lowerChar (c : Char) : Char :=
  if 'A' ≤ c ∧ c ≤ 'Z' then Char.ofNat (c.toNat + 32) else c

/-- JS `String.prototype.toLowerCase` for ASCII strings. -/
def lowerStr (s : String) : String := ⟨s.data.map lowerChar⟩

/-- JS `String.prototype.includes`: `pat` occurs as a contiguous substring
of `s`. -/
def strIncludes (s pat : String) : Bool :=
  s.data.tails.any (fun t => pat.data.isPrefixOf t)

/-- A receipt's decoded logs: `some w` is a `WalletCreated` log recording
wallet address `w`, `none` a log that does not parse as `WalletCreated`.
The source scans `receipt.logs` for the first parsing log
(`receipt.logs.find(...)`) and reads `parsed.args.wallet` from it. -/
def findWallet (logs : List (Option String)) : Option String :=
  (logs.filterMap id).head?

/-- Per-attempt outcomes of the chain interactions performed by
`createWalletOnChain`: `owner i` is the result of `factory.owner()` on the
0-indexed attempt `i`, and `create i` the result of
`factory.createSingleWallet(...)` + `tx.wait()` on that attempt (its value
the receipt's decoded logs).  Provider/signer/contract construction is
local object creation, not an RPC call. -/
structure BurnEnv where
  owner : Nat → Except String String
  create : Nat → Except String (List (Option String))

/-- Observable outcome of `createWalletOnChain`: returned address or
thrown error message, attempts performed, number of `owner()` RPC calls,
number of `createSingleWallet` transaction submissions, total backoff
milliseconds slept. -/
structure BurnResult where
  result : Except String String
  attempts : Nat
  ownerCalls : Nat
  createCalls : Nat
  totalDelay : Nat

/-- Retry loop of `createWalletOnChain` (server.js 235-278),
`maxAttempts = 6`, backoff `1500 * attempts` ms; every error — including
the `"Not factory owner"` mismatch — falls into the same catch, which
re-raises only once `attempts >= maxAttempts`.  The fuel-0 case is the
loop exiting without a result (unreachable from the call site, where fuel
starts at 6 ≥ 1 and every sixth-attempt failure re-raises). -/
def createWalletOnChainGo (signer : String) (env : BurnEnv) :
    Nat → Nat → Nat → Nat → Nat → BurnResult
  | 0, i, oc, cc, delay => ⟨.error "", i, oc, cc, delay⟩
  | fuel + 1, i, oc, cc, delay =>
    match env.owner i with
    | .error e =>
      if i + 1 ≥ 6 then ⟨.error e, i + 1, oc + 1, cc, delay⟩
      else createWalletOnChainGo signer env fuel (i + 1) (oc + 1) cc (delay + 1500 * (i + 1))
    | .ok o =>
      if lowerStr o ≠ lowerStr signer then
        if i + 1 ≥ 6 then ⟨.error "Not factory owner", i + 1, oc + 1, cc, delay⟩
        else createWalletOnChainGo signer env fuel (i + 1) (oc + 1) cc (delay + 1500 * (i + 1))
      else
        match env.create i with
        | .error e =>
          if i + 1 ≥ 6 then ⟨.error e, i + 1, oc + 1, cc + 1, delay⟩
          else createWalletOnChainGo signer env fuel (i + 1) (oc + 1) (cc + 1)
            (delay + 1500 * (i + 1))
        | .ok logs =>
          match findWallet logs with
          | some w => ⟨.ok w, i + 1, oc + 1, cc + 1, delay⟩
          | none =>
            if i + 1 ≥ 6 then
              ⟨.error "Wallet creation failed - no event found", i + 1, oc + 1, cc + 1, delay⟩
            else createWalletOnChainGo signer env fuel (i + 1) (oc + 1) (cc + 1)
              (delay + 1500 * (i + 1))

/-- The keys of `CHAIN_CONFIGS` (server.js 64-83). -/
def chainConfigKeys : List String := ["arbitrum", "base", "avalanche"]

/-- `createWalletOnChain(chainKey, mintRecipient)` (server.js 229-279): an
unknown chain key throws `Unsupported chain ...` before any provider or
contract is touched; otherwise the 6-attempt retry loop runs. -/
def createWalletOnChain (chainKey signer : String) (env : BurnEnv) : BurnResult :=
  if chainConfigKeys.contains chainKey then
    createWalletOnChainGo signer env 6 0 0 0 0
  else
    ⟨.error ("Unsupported chain " ++ chainKey ++ ". Use eth, base, avalanche."), 0, 0, 0, 0⟩

/-- A `WalletCreated(wallet, destination)` event of the Avalanche transfer
factory (`AVALANCHE_TRANSFER_ABI`, server.js 57-61). -/
structure Ev where
  wallet : String
  destination : String
  deriving DecidableEq

/-- Per-call outcomes of the chain interactions performed by
`createAvalancheTransferWallet`: `recent50` is the raw event log of the
factory over the last 50 blocks at pre-check time (the source filters it
by destination), `owner i` / `create i` the per-attempt RPC outcomes, and
`recent20 i` the raw event log over the last 20 blocks queried (without
any destination filter) by the already-known recovery branch of attempt
`i`. -/
structure AvaEnv where
  recent50 : Except String (List Ev)
  owner : Nat → Except String String
  create : Nat → Except String (List (Option String))
  recent20 : Nat → Except String (List Ev)

/-- Observable outcome of `createAvalancheTransferWallet`: returned address
or thrown error message, attempts performed, number of
`createSingleWallet` transaction submissions, total milliseconds slept. -/
structure TransferResult where
  result : Except String String
  attempts : Nat
  createCalls : Nat
  totalDelay : Nat

/-- The catch block of `createAvalancheTransferWallet`'s retry loop
(server.js 341-373): when the error message includes `"already known"` it
sleeps 10 s and re-scans the last 20 blocks of `WalletCreated` events
(unfiltered), returning the latest event's wallet when one exists;
otherwise — and likewise when the recovery scan fails or finds nothing —
it re-raises once `attempts >= maxAttempts = 3` and else sleeps
`3000 * attempts` ms and retries via `cont`. -/
def avaCatch (recent20 : Except String (List Ev))
    (cont : Nat → Nat → Nat → TransferResult)
    (e : String) (i cc delay : Nat) : TransferResult :=
  if strIncludes e "already known" then
    match recent20 with
    | .ok evs =>
      match evs.getLast? with
      | some ev => ⟨.ok ev.wallet, i + 1, cc, delay + 10000⟩
      | none =>
        if i + 1 ≥ 3 then ⟨.error e, i + 1, cc, delay + 10000⟩
        else cont (i + 1) cc (delay + 10000 + 3000 * (i + 1))
    | .error _ =>
      if i + 1 ≥ 3 then ⟨.error e, i + 1, cc, delay + 10000⟩
      else cont (i + 1) cc (delay + 10000 + 3000 * (i + 1))
  else
    if i + 1 ≥ 3 then ⟨.error e, i + 1, cc, delay⟩
    else cont (i + 1) cc (delay + 3000 * (i + 1))

/-- Retry loop of `createAvalancheTransferWallet` (server.js 304-374),
`maxAttempts = 3`.  The fuel-0 case is the loop exiting without a result
(unreachable from the call site). -/
def createAvaGo (signer : String) (env : AvaEnv) :
    Nat → Nat → Nat → Nat → TransferResult
  | 0, i, cc, delay => ⟨.error "", i, cc, delay⟩
  | fuel + 1, i, cc, delay =>
    match env.owner i with
    | .error e => avaCatch (env.recent20 i) (createAvaGo signer env fuel) e i cc delay
    | .ok o =>
      if lowerStr o ≠ lowerStr signer then
        avaCatch (env.recent20 i) (createAvaGo signer env fuel) "Not factory owner" i cc delay
      else
        match env.create i with
        | .error e => avaCatch (env.recent20 i) (createAvaGo signer env fuel) e i (cc + 1) delay
        | .ok logs =>
          match findWallet logs with
          | some w => ⟨.ok w, i + 1, cc + 1, delay⟩
          | none => avaCatch (env.recent20 i) (createAvaGo signer env fuel)
              "Wallet creation failed - no event found" i (cc + 1) delay

/-- `createAvalancheTransferWallet(destinationAddress)` (server.js
282-375): the pre-check filters the last-50-blocks event log by the
requested destination (`factory.filters.WalletCreated(null,
destinationAddress)`) and short-circuits with the latest matching event's
wallet; a pre-check error is swallowed and creation proceeds. -/
def createAvalancheTransferWallet (signer destination : String) (env : AvaEnv) :
    TransferResult :=
  match env.recent50 with
  | .ok evs =>
    match (evs.filter (fun ev => ev.destination == destination)).getLast? with
    | some ev => ⟨.ok ev.wallet, 0, 0, 0⟩
    | none => createAvaGo signer env 3 0 0 0
  | .error _ => createAvaGo signer env 3 0 0 0

/-- ASCII upper-casing, the behaviour of JS `toUpperCase()` on the chain
keys interpolated into the response lines. -/
def upperChar (c : Char) : Char :=
  if 'a' ≤ c ∧ c ≤ 'z' then Char.ofNat (c.toNat - 32) else c

/-- JS `String.prototype.toUpperCase` for ASCII strings. -/
def upperStr (s : String) : String := ⟨s.data.map upperChar⟩

/-- Observable outcome of the `POST /api/create-wallet-all` handler: HTTP
status of the response, the `LABEL: address` lines of the body as pairs,
and the chains on which a burn-wallet creation was attempted. -/
structure BatchOutcome where
  status : Nat
  lines : List (String × String)
  burnAttempted : List String
  deriving DecidableEq

/-- `POST /api/create-wallet-all` (server.js 915-956) as a function of the
primary `createAvalancheTransferWallet` outcome `ava` and of each burn
chain's `createWalletOnChain` outcome `burn chain recipient` (the handler
passes the created Avalanche wallet address, zero-padded to 32 bytes, as
recipient; the padding is an injective re-encoding left to the
environment).  A primary failure answers 500 at once; burn failures are
swallowed chain by chain and the 200 response lists whatever succeeded. -/
def createWalletAllHandler (ava : Except String String)
    (burn : String → String → Except String String) : BatchOutcome :=
  match ava with
  | .error _ => ⟨500, [], []⟩
  | .ok a =>
    let step := fun (acc : List (String × String) × List String) (c : String) =>
      match burn c a with
      | .ok addr => (acc.1 ++ [(upperStr c, addr)], acc.2 ++ [c])
      | .error _ => (acc.1, acc.2 ++ [c])
    let r := ["arbitrum", "base"].foldl step ([("AVALANCHE", a)], [])
    ⟨200, r.1, r.2⟩

/-- C8: for every chain key outside the configured set
(`arbitrum`, `base`, `avalanche`), `createWalletOnChain` fails immediately
with the `Unsupported chain` error, performing zero attempts, zero
`owner()` RPC calls, zero transaction submissions and no delay — the
environment is never consulted. -/
theorem createWalletOnChain_unsupported (chainKey signer : String) (env : BurnEnv)
    (h : chainConfigKeys.contains chainKey = false) :
    createWalletOnChain chainKey signer env =
      ⟨.error ("Unsupported chain " ++ chainKey ++ ". Use eth, base, avalanche."),
        0, 0, 0, 0⟩ := by
  unfold createWalletOnChain
  rw [h, if_neg Bool.false_ne_true]

/-- Environment whose every RPC call fails (never reached in the
unsupported-chain case). -/
def unreachedBurnEnv : BurnEnv :=
  ⟨fun _ => .error "rpc down", fun _ => .error "rpc down"⟩

/-- Witness for C8 at the concrete key `"eth"` (absent from
`CHAIN_CONFIGS`, whose keys are arbitrum/base/avalanche). -/
theorem createWalletOnChain_unsupported_witness :
    createWalletOnChain "eth" "0xoperator" unreachedBurnEnv =
      ⟨.error ("Unsupported chain " ++ "eth" ++ ". Use eth, base, avalanche."),
        0, 0, 0, 0⟩ :=
  createWalletOnChain_unsupported "eth" "0xoperator" unreachedBurnEnv rfl

/-- Environment in which `factory.owner()` always answers an address
distinct (case-insensitively) from the operator's. -/
def mismatchBurnEnv : BurnEnv :=
  ⟨fun _ => .ok "0xOWNER", fun _ => .ok []⟩

/-- C3 counterexample: with the configured key's address differing from
the factory's reported owner on every attempt, `createWalletOnChain`
performs all 6 attempts — the ownership mismatch is consumed by the retry
loop like any other failure, so the call does NOT fail immediately after
a single attempt as the claim states. -/
theorem ownership_mismatch_retried_cex :
    (createWalletOnChain "base" "0xoperator" mismatchBurnEnv).attempts = 6 ∧
      (createWalletOnChain "base" "0xoperator" mismatchBurnEnv).result =
        .error "Not factory owner" ∧
      (createWalletOnChain "base" "0xoperator" mismatchBurnEnv).attempts ≠ 1 :=
  ⟨rfl, rfl, by decide⟩

lemma createWalletOnChainGo_mismatch (signer : String) (env : BurnEnv)
    (hown : ∀ i, ∃ o, env.owner i = .ok o ∧ lowerStr o ≠ lowerStr signer) :
    ∀ (fuel i oc cc delay : Nat), 1 ≤ fuel → i + fuel = 6 →
      createWalletOnChainGo signer env fuel i oc cc delay =
        ⟨.error "Not factory owner", 6, oc + fuel, cc,
          delay + 1500 * ∑ t ∈ Finset.Ico (i + 1) 6, t⟩ := by
  intro fuel
  induction fuel with
  | zero => intro i oc cc delay h1; omega
  | succ f ih =>
    intro i oc cc delay h1 hif
    obtain ⟨o, ho, hno⟩ := hown i
    simp only [createWalletOnChainGo, ho]
    rw [if_pos hno]
    rcases Nat.eq_zero_or_pos f with rfl | hf
    · have hi : i = 5 := by omega
      subst hi
      rw [if_pos (by omega)]
      simp [Finset.Ico_self]
    · rw [if_neg (by omega),
        ih (i + 1) (oc + 1) cc (delay + 1500 * (i + 1)) hf (by omega),
        Finset.sum_eq_sum_Ico_succ_bot (by omega : i + 1 < 6)]
      congr 1
      · omega
      · ring

lemma createAva_no_existing (signer dest : String) (env : AvaEnv) (evs0 : List Ev)
    (h1 : env.recent50 = .ok evs0)
    (h2 : (evs0.filter (fun ev => ev.destination == dest)).getLast? = none) :
    createAvalancheTransferWallet signer dest env = createAvaGo signer env 3 0 0 0 := by
  simp [createAvalancheTransferWallet, h1, h2]

lemma createAvaGo_mismatch (signer : String) (env : AvaEnv)
    (hown : ∀ i, ∃ o, env.owner i = .ok o ∧ lowerStr o ≠ lowerStr signer) :
    ∀ (fuel i cc delay : Nat), 1 ≤ fuel → i + fuel = 3 →
      createAvaGo signer env fuel i cc delay =
        ⟨.error "Not factory owner", 3, cc,
          delay + 3000 * ∑ t ∈ Finset.Ico (i + 1) 3, t⟩ := by
  intro fuel
  induction fuel with
  | zero => intro i cc delay h1; omega
  | succ f ih =>
    intro i cc delay h1 hif
    obtain ⟨o, ho, hno⟩ := hown i
    simp only [createAvaGo, ho]
    rw [if_pos hno]
    simp only [avaCatch]
    rw [show strIncludes "Not factory owner" "already known" = false from rfl,
      if_neg Bool.false_ne_true]
    rcases Nat.eq_zero_or_pos f with rfl | hf
    · have hi : i = 2 := by omega
      subst hi
      rw [if_pos (by omega)]
      simp [Finset.Ico_self]
    · rw [if_neg (by omega),
        ih (i + 1) cc (delay + 3000 * (i + 1)) hf (by omega),
        Finset.sum_eq_sum_Ico_succ_bot (by omega : i + 1 < 3)]
      congr 1
      ring

/-- C3 (amended): a wallet-creation call whose configured key's address
does not match the factory's reported owner is NOT failed fast: the
`"Not factory owner"` error is caught by the retry loop like any other
failure, so `createWalletOnChain` re-attempts (re-querying the owner each
time) up to its full 6 attempts with `1500 * attempt` ms backoffs
(22500 ms in total) and only then throws the ownership error, never having
submitted a creation transaction; `createAvalancheTransferWallet`
(pre-check finding no existing wallet) likewise runs its full 3 attempts
with `3000 * attempt` ms backoffs (9000 ms in total) before throwing. -/
theorem ownership_mismatch_retried (chainKey signer signer2 dest : String)
    (env : BurnEnv) (env2 : AvaEnv) (evs0 : List Ev) :
    (chainConfigKeys.contains chainKey = true →
      (∀ i, ∃ o, env.owner i = .ok o ∧ lowerStr o ≠ lowerStr signer) →
      createWalletOnChain chainKey signer env =
        ⟨.error "Not factory owner", 6, 6, 0, 22500⟩) ∧
    (env2.recent50 = .ok evs0 →
      (evs0.filter (fun ev => ev.destination == dest)).getLast? = none →
      (∀ i, ∃ o, env2.owner i = .ok o ∧ lowerStr o ≠ lowerStr signer2) →
      createAvalancheTransferWallet signer2 dest env2 =
        ⟨.error "Not factory owner", 3, 0, 9000⟩) := by
  constructor
  · intro hkey hown
    unfold createWalletOnChain
    rw [hkey, if_pos rfl,
      createWalletOnChainGo_mismatch signer env hown 6 0 0 0 0 (by omega) (by omega)]
    norm_num
    decide
  · intro h50 hfilter hown
    rw [createAva_no_existing signer2 dest env2 evs0 h50 hfilter,
      createAvaGo_mismatch signer2 env2 hown 3 0 0 0 (by omega) (by omega)]
    norm_num
    decide

/-- Avalanche environment whose `owner()` always answers a mismatching
address and whose pre-check finds no existing wallet. -/
def mismatchAvaEnv : AvaEnv :=
  ⟨.ok [], fun _ => .ok "0xOWNER", fun _ => .ok [], fun _ => .ok []⟩

/-- Witness for the amended C3 at concrete inputs. -/
theorem ownership_mismatch_retried_witness :
    createWalletOnChain "base" "0xoperator" mismatchBurnEnv =
        ⟨.error "Not factory owner", 6, 6, 0, 22500⟩ ∧
      createAvalancheTransferWallet "0xoperator" "0xdest" mismatchAvaEnv =
        ⟨.error "Not factory owner", 3, 0, 9000⟩ := by
  refine ⟨?_, ?_⟩
  · exact (ownership_mismatch_retried "base" "0xoperator" "0xoperator" "0xdest"
      mismatchBurnEnv mismatchAvaEnv []).1 rfl
      (fun i => ⟨"0xOWNER", rfl, by decide⟩)
  · exact (ownership_mismatch_retried "base" "0xoperator" "0xoperator" "0xdest"
      mismatchBurnEnv mismatchAvaEnv []).2 rfl rfl
      (fun i => ⟨"0xOWNER", rfl, by decide⟩)

/-- C5: transfer-wallet creation is idempotent.  If the first call's
pre-check finds no wallet for the destination and its single creation
attempt succeeds with `WalletCreated` wallet `w`, and at the time of the
second call that event is discoverable in the 50-block lookback window
(latest event for the destination), then both calls return `w` and only
the first call submits a creation transaction (the second short-circuits
with zero submissions). -/
theorem transferWallet_idempotent (signer dest w o : String) (env1 env2 : AvaEnv)
    (evs0 evs2 : List Ev) (logs : List (Option String))
    (h1a : env1.recent50 = .ok evs0)
    (h1b : (evs0.filter (fun ev => ev.destination == dest)).getLast? = none)
    (h1c : env1.owner 0 = .ok o) (h1d : lowerStr o = lowerStr signer)
    (h1e : env1.create 0 = .ok logs) (h1f : findWallet logs = some w)
    (h2a : env2.recent50 = .ok evs2)
    (h2b : (evs2.filter (fun ev => ev.destination == dest)).getLast? = some ⟨w, dest⟩) :
    createAvalancheTransferWallet signer dest env1 = ⟨.ok w, 1, 1, 0⟩ ∧
      createAvalancheTransferWallet signer dest env2 = ⟨.ok w, 0, 0, 0⟩ := by
  constructor
  · rw [createAva_no_existing signer dest env1 evs0 h1a h1b]
    simp only [createAvaGo, h1c]
    rw [if_neg (by rw [h1d]; exact fun h => h rfl)]
    simp only [h1e, h1f]
  · simp [createAvalancheTransferWallet, h2a, h2b]

/-- First-call environment for the C5 witness: empty pre-check window,
matching owner (case-insensitively), creation succeeding with a
`WalletCreated` log for wallet `0xW`. -/
def idemEnvFirst : AvaEnv :=
  ⟨.ok [], fun _ => .ok "0xOp", fun _ => .ok [none, some "0xW"], fun _ => .ok []⟩

/-- Second-call environment for the C5 witness: the first call's event is
in the 50-block window. -/
def idemEnvSecond : AvaEnv :=
  ⟨.ok [⟨"0xW", "0xD"⟩], fun _ => .error "unused", fun _ => .error "unused",
    fun _ => .error "unused"⟩

/-- Witness for C5 at concrete inputs: both calls return `0xW`; the first
performs exactly one submission, the second none. -/
theorem transferWallet_idempotent_witness :
    createAvalancheTransferWallet "0xOP" "0xD" idemEnvFirst = ⟨.ok "0xW", 1, 1, 0⟩ ∧
      createAvalancheTransferWallet "0xOP" "0xD" idemEnvSecond = ⟨.ok "0xW", 0, 0, 0⟩ :=
  transferWallet_idempotent "0xOP" "0xD" "0xW" "0xOp" idemEnvFirst idemEnvSecond
    [] [⟨"0xW", "0xD"⟩] [none, some "0xW"]
    rfl rfl rfl (by decide) rfl rfl rfl rfl

lemma createAva_alreadyKnown_core (signer dest o e w d2 : String) (env : AvaEnv)
    (evs0 recovered : List Ev)
    (hpre1 : env.recent50 = .ok evs0)
    (hpre2 : (evs0.filter (fun ev => ev.destination == dest)).getLast? = none)
    (hown : env.owner 0 = .ok o) (hmatch : lowerStr o = lowerStr signer)
    (hcr : env.create 0 = .error e) (hak : strIncludes e "already known" = true)
    (hrec : env.recent20 0 = .ok recovered)
    (hlast : recovered.getLast? = some ⟨w, d2⟩) :
    createAvalancheTransferWallet signer dest env = ⟨.ok w, 1, 1, 10000⟩ := by
  rw [createAva_no_existing signer dest env evs0 hpre1 hpre2]
  simp only [createAvaGo, hown]
  rw [if_neg (by rw [hmatch]; exact fun h => h rfl)]
  simp only [hcr, avaCatch, hak, hrec, hlast]
  simp

/-- C7: when the creation transaction fails with an `"already known"`
(duplicate-submission) error, `createAvalancheTransferWallet` does not
treat the attempt as failed: it sleeps 10 s, re-scans the last-20-blocks
`WalletCreated` events, and when an event is found returns that (latest)
event's wallet — one single submission, no resubmission, no raise. -/
theorem alreadyKnown_recovery (signer dest o e w d2 : String) (env : AvaEnv)
    (evs0 recovered : List Ev)
    (hpre1 : env.recent50 = .ok evs0)
    (hpre2 : (evs0.filter (fun ev => ev.destination == dest)).getLast? = none)
    (hown : env.owner 0 = .ok o) (hmatch : lowerStr o = lowerStr signer)
    (hcr : env.create 0 = .error e) (hak : strIncludes e "already known" = true)
    (hrec : env.recent20 0 = .ok recovered)
    (hlast : recovered.getLast? = some ⟨w, d2⟩) :
    createAvalancheTransferWallet signer dest env = ⟨.ok w, 1, 1, 10000⟩ :=
  createAva_alreadyKnown_core signer dest o e w d2 env evs0 recovered
    hpre1 hpre2 hown hmatch hcr hak hrec hlast

/-- Environment for the C7 witness: pre-check empty, owner matching,
submission failing as a duplicate, recovery scan holding one event. -/
def alreadyKnownEnv : AvaEnv :=
  ⟨.ok [], fun _ => .ok "0xAaA", fun _ => .error "tx already known to the pool",
    fun _ => .ok [⟨"0xNEW", "0xDEST"⟩]⟩

/-- Witness for C7 at concrete inputs. -/
theorem alreadyKnown_recovery_witness :
    createAvalancheTransferWallet "0xaaa" "0xDEST" alreadyKnownEnv =
      ⟨.ok "0xNEW", 1, 1, 10000⟩ :=
  alreadyKnown_recovery "0xaaa" "0xDEST" "0xAaA" "tx already known to the pool"
    "0xNEW" "0xDEST" alreadyKnownEnv [] [⟨"0xNEW", "0xDEST"⟩]
    rfl rfl rfl (by decide) rfl rfl rfl rfl

/-- C9 (implicit): the already-known recovery branch queries
`WalletCreated` events WITHOUT the destination filter used by the
pre-creation check, and returns the wallet of the most recent event in
the 20-block window — even when that event's destination `d2` differs
from the requested destination, so the recovered address is whatever
wallet the factory created last, not necessarily one for the requested
destination. -/
theorem alreadyKnown_recovery_ignores_destination (signer dest o e w d2 : String)
    (env : AvaEnv) (evs0 recovered : List Ev)
    (hpre1 : env.recent50 = .ok evs0)
    (hpre2 : (evs0.filter (fun ev => ev.destination == dest)).getLast? = none)
    (hown : env.owner 0 = .ok o) (hmatch : lowerStr o = lowerStr signer)
    (hcr : env.create 0 = .error e) (hak : strIncludes e "already known" = true)
    (hrec : env.recent20 0 = .ok recovered)
    (hlast : recovered.getLast? = some ⟨w, d2⟩)
    (_hd2 : d2 ≠ dest) :
    createAvalancheTransferWallet signer dest env = ⟨.ok w, 1, 1, 10000⟩ :=
  createAva_alreadyKnown_core signer dest o e w d2 env evs0 recovered
    hpre1 hpre2 hown hmatch hcr hak hrec hlast

/-- Environment for the C9 witness: the only event in the recovery window
was created for a DIFFERENT destination, yet its wallet is returned. -/
def strayRecoveryEnv : AvaEnv :=
  ⟨.ok [], fun _ => .ok "0xBbB", fun _ => .error "nonce already known",
    fun _ => .ok [⟨"0xSTRAY", "0xOTHER"⟩]⟩

/-- Witness for C9 at concrete inputs: the requested destination is
`0xME`, the recovered event's destination is `0xOTHER`, and the call
still returns the stray wallet `0xSTRAY`. -/
theorem alreadyKnown_recovery_ignores_destination_witness :
    createAvalancheTransferWallet "0xbbb" "0xME" strayRecoveryEnv =
      ⟨.ok "0xSTRAY", 1, 1, 10000⟩ :=
  alreadyKnown_recovery_ignores_destination "0xbbb" "0xME" "0xBbB"
    "nonce already known" "0xSTRAY" "0xOTHER" strayRecoveryEnv []
    [⟨"0xSTRAY", "0xOTHER"⟩] rfl rfl rfl (by decide) rfl rfl rfl rfl (by decide)

/-- C6: in `POST /api/create-wallet-all`, a failing primary Avalanche
transfer-wallet creation fails the whole batch with a 500 error and no
burn wallet is attempted; when the primary succeeds, both burn chains are
always attempted, a failure on either is isolated (it does not abort the
other), the response is a 200 — no exception to the caller — and its
lines consist of the Avalanche wallet followed by exactly the
successfully created burn wallets. -/
theorem createWalletAll_partial_failure (ava : Except String String)
    (burn : String → String → Except String String) :
    (∀ e, ava = .error e → createWalletAllHandler ava burn = ⟨500, [], []⟩) ∧
    (∀ a, ava = .ok a →
      createWalletAllHandler ava burn =
        ⟨200,
          ("AVALANCHE", a) ::
            ((match burn "arbitrum" a with
              | .ok addr => [("ARBITRUM", addr)]
              | .error _ => []) ++
              (match burn "base" a with
              | .ok addr => [("BASE", addr)]
              | .error _ => [])),
          ["arbitrum", "base"]⟩) := by
  have hu1 : upperStr "arbitrum" = "ARBITRUM" := rfl
  have hu2 : upperStr "base" = "BASE" := rfl
  constructor
  · intro e he
    subst he
    rfl
  · intro a ha
    subst ha
    cases hA : burn "arbitrum" a <;> cases hB : burn "base" a <;>
      simp [createWalletAllHandler, hA, hB, hu1, hu2]

/-- Witness for C6 at concrete inputs, matching the claim's scenario: the
primary succeeds, chain B (arbitrum) fails, chain A (base) succeeds — the
result contains base's wallet, omits arbitrum's, and is a 200 response;
and a failing primary yields the 500 outcome with no burn attempted. -/
theorem createWalletAll_partial_failure_witness :
    createWalletAllHandler (.ok "0xAVA")
        (fun c _ => if c = "base" then .ok "0xBASE" else .error "rpc down") =
      ⟨200, [("AVALANCHE", "0xAVA"), ("BASE", "0xBASE")], ["arbitrum", "base"]⟩ ∧
      createWalletAllHandler (.error "primary down")
        (fun _ _ => .ok "0xNEVER") = ⟨500, [], []⟩ := by
  constructor
  · have := (createWalletAll_partial_failure (.ok "0xAVA")
      (fun c _ => if c = "base" then .ok "0xBASE" else .error "rpc down")).2
      "0xAVA" rfl
    simpa using this
  · exact (createWalletAll_partial_failure (.error "primary down")
      (fun _ _ => .ok "0xNEVER")).1 "primary down" rfl

/-! ## Amount conversion at the HTTP boundary (server.js 722-729, 786-811)

The handlers convert a decimal amount string by
`BigInt(Math.floor(parseFloat(amount) * 1000000))` and an integer string
by `BigInt(amount)`.  The decimal path runs through IEEE-754 binary64
(`parseFloat` is the correctly rounded decimal→double conversion of
ECMA-262, round to nearest, ties to even; the multiplication by the
exactly representable 1000000 rounds the exact product the same way;
`Math.floor` and the final `BigInt` conversion are exact).  Binary64 is
modelled exactly, over unnormalised `Nat` fractions, for positive values
in the normal range (all amounts exercised here; overflow and subnormals
are out of range for them). -/

/-- `log2Fuel fuel n` = ⌊log₂ n⌋ whenever `fuel ≥ n`'s bit length
(structural fuel makes the kernel reduce it). -/
def log2Fuel : Nat → Nat → Nat
  | 0, _ => 0
  | f + 1, n => if n ≥ 2 then log2Fuel f (n / 2) + 1 else 0

/-- ⌊log₂ n⌋ for `n ≥ 1`. -/
def natLog2 (n : Nat) : Nat := log2Fuel n n

/-- Is `(num / den) * 2 ^ (-e) ≥ 2 ^ b`?  (Comparison of the scaled
magnitude of the positive fraction `num / den` against a binade bound.) -/
def geScaled (num den : Nat) (e : Int) (b : Nat) : Bool :=
  if e ≤ 0 then den * 2 ^ b ≤ num * 2 ^ (-e).toNat
  else den * 2 ^ (b + e.toNat) ≤ num

/-- Raise the exponent while the scaled mantissa is still ≥ 2^53. -/
def adjustUp (num den : Nat) : Nat → Int → Int
  | 0, e => e
  | f + 1, e => if geScaled num den e 53 then adjustUp num den f (e + 1) else e

/-- Lower the exponent while the scaled mantissa is still < 2^52. -/
def adjustDown (num den : Nat) : Nat → Int → Int
  | 0, e => e
  | f + 1, e => if geScaled num den e 52 then e else adjustDown num den f (e - 1)

/-- The binary64 exponent of the positive fraction `num / den`: the unique
`e` with `2^52 ≤ (num / den) * 2^(-e) < 2^53`, found from the ⌊log₂⌋
estimate and corrected by bounded search. -/
def fpExp (num den : Nat) : Int :=
  adjustDown num den 200
    (adjustUp num den 200 ((natLog2 num : Int) - (natLog2 den : Int) - 52))

/-- The 53-bit significand of the binary64 nearest to `num / den` at
exponent `e`: the scaled fraction rounded to the nearest integer, ties to
even. -/
def roundMantissa (num den : Nat) (e : Int) : Nat :=
  let N := if e ≤ 0 then num * 2 ^ (-e).toNat else num
  let D := if e ≤ 0 then den else den * 2 ^ e.toNat
  let m0 := N / D
  let r := N % D
  if 2 * r < D then m0
  else if D < 2 * r then m0 + 1
  else if m0 % 2 = 0 then m0 else m0 + 1

/-- The binary64 value nearest to the nonnegative fraction `num / den`,
as a significand/exponent pair `(m, e)` denoting `m * 2 ^ e`. -/
def roundFrac (num den : Nat) : Nat × Int :=
  if num = 0 then (0, 0)
  else
    let e := fpExp num den
    (roundMantissa num den e, e)

/-- `Math.floor(parseFloat(amount) * 1000000)` for an amount whose exact
decimal value is the nonnegative fraction `num / den`: round to binary64,
multiply by 1000000 exactly and round the product to binary64 again, then
take the floor. -/
def jsUnits (num den : Nat) : Nat :=
  let p1 := roundFrac num den
  let pn := if p1.2 ≥ 0 then p1.1 * 1000000 * 2 ^ p1.2.toNat else p1.1 * 1000000
  let pd := if p1.2 ≥ 0 then 1 else 2 ^ (-p1.2).toNat
  let p2 := roundFrac pn pd
  if p2.2 ≥ 0 then p2.1 * 2 ^ p2.2.toNat else p2.1 / 2 ^ (-p2.2).toNat

/-- Value of a decimal digit character. -/
def digitVal (c : Char) : Option Nat :=
  if '0' ≤ c ∧ c ≤ '9' then some (c.toNat - '0'.toNat) else none

/-- Value of a digit string (`none` on any non-digit). -/
def digitsVal? (cs : List Char) : Option Nat :=
  cs.foldl
    (fun acc c =>
      match acc, digitVal c with
      | some a, some d => some (a * 10 + d)
      | _, _ => none)
    (some 0)

/-- Split a character list at every `'.'`. -/
def splitDot : List Char → List (List Char)
  | [] => [[]]
  | c :: rest =>
    let r := splitDot rest
    if c = '.' then [] :: r
    else
      match r with
      | [] => [[c]]
      | h :: t => (c :: h) :: t

/-- The amount conversion of the `/api/transfer-usdc` and `/api/test-burn`
handlers (server.js 786-811 and 722-729): a string containing `'.'` is
parsed as `{D}.{F}` and converted through binary64 via `jsUnits`; any
other string is converted by the exact `BigInt` cast. -/
def amountToUnits (s : String) : Option Int :=
  if s.data.contains '.' then
    match splitDot s.data with
    | [dpart, fpart] =>
      match digitsVal? dpart, digitsVal? fpart with
      | some dv, some fv =>
        some (Int.ofNat (jsUnits (dv * 10 ^ fpart.length + fv) (10 ^ fpart.length)))
      | _, _ => none
    | _ => none
  else (digitsVal? s.data).map Int.ofNat

/-- The spec's conversion: `floor(D.F * 1_000_000)` computed exactly for
`D.F = dv + fv / 10 ^ flen`. -/
def exactUnits (dv fv flen : Nat) : Nat :=
  ((dv * 10 ^ flen + fv) * 1000000) / 10 ^ flen

lemma exactUnits_eq_floor (dv fv flen : Nat) :
    (exactUnits dv fv flen : Int) =
      ⌊(((dv : ℚ) + (fv : ℚ) / ((10 ^ flen : Nat) : ℚ)) * 1000000)⌋ := by
  have hq : (((dv : ℚ) + (fv : ℚ) / ((10 ^ flen : Nat) : ℚ)) * 1000000)
      = (((dv * 10 ^ flen + fv) * 1000000 : Nat) : ℚ) / ((10 ^ flen : Nat) : ℚ) := by
    have h10 : ((10 ^ flen : Nat) : ℚ) ≠ 0 := by positivity
    field_simp
  rw [hq, Rat.floor_natCast_div_natCast]
  exact Int.ofNat_tdiv _ _

/-- C4 counterexample: for the decimal amount string `"4.1"` the
handler's conversion yields `4099999` — `parseFloat("4.1")` is slightly
below 4.1 and the double product falls below 4100000 — whereas
`floor(4.1 * 1_000_000) = 4100000`; the conversion is therefore not
exactly `floor(D.F * 10^6)`. -/
theorem amount_conversion_cex :
    amountToUnits "4.1" = some 4099999 ∧
      (exactUnits 4 1 1 : Int) = 4100000 ∧
      (4099999 : Int) ≠ 4100000 :=
  ⟨by decide, by decide, by decide⟩

/-- C4 (amended): for every integer-string amount the conversion is the
identity cast to an integer; for decimal amount strings `{D}.{F}` it is
the floor of the IEEE-754 binary64 computation of `D.F × 10^6`, which
agrees with the exact `floor(D.F * 1_000_000)` on many inputs (e.g.
`"0.29"` gives exactly `floor(0.29 * 10^6) = 290000`) but not on all:
double rounding can drop the product below the exact value, e.g. `"4.1"`
converts to `4099999` while `floor(4.1 * 10^6) = 4100000`. -/
theorem amount_conversion_amended :
    (∀ (s : String) (n : Nat), s.data.contains '.' = false →
      digitsVal? s.data = some n → amountToUnits s = some (Int.ofNat n)) ∧
    (amountToUnits "0.29" = some (Int.ofNat (exactUnits 0 29 2)) ∧
      exactUnits 0 29 2 = 290000) ∧
    (amountToUnits "4.1" = some 4099999 ∧ (exactUnits 4 1 1 : Int) = 4100000) := by
  refine ⟨?_, ⟨by decide, by decide⟩, by decide, by decide⟩
  intro s n hdot hdig
  unfold amountToUnits
  rw [hdot, if_neg Bool.false_ne_true, hdig]
  rfl

/-- Witness for the amended C4: the integer string `"1000"` converts to
the integer 1000 by the identity cast. -/
theorem amount_conversion_amended_witness :
    amountToUnits "1000" = some (Int.ofNat 1000) :=
  amount_conversion_amended.1 "1000" 1000 (by decide) (by decide)

end Soup
